import Mathlib

/-!
Verification of the Glonni order-lifecycle and financial-settlement engine.

The definitions below are a shallow embedding of the repository's service
layer (`src/services/orderService.ts`, `cashbackService.ts`,
`walletService.ts`, `vendorService.ts`), of the order-creation API route
(`app/api/orders/create/route.js`), and of the client-side status-transition
guard from the audit document.  Monetary values are embedded as `Rat`
(the store's DECIMAL columns are exact decimals), quantities and row ids as
`Nat`, timestamps as `Int` milliseconds.  Database functions that the
services invoke by name but whose bodies are not part of the repository
sources are modelled from the spec and marked as such in their doc comments.
-/

namespace Glonni

/-- Order statuses: the six statuses named by the service layer's
`updateOrderStatus` signature together with the two extra statuses that the
`orders.order_status` CHECK constraint and the audit document's transition
table use. -/
inductive OrderStatus
  | CREATED
  | PAID
  | SHIPPED
  | DELIVERED
  | CANCELLED
  | RETURNED
  | ORDER_PLACED
  | PROCESSING
  deriving DecidableEq

/-- Cashback statuses, from the CHECK constraint on `cashback.status`. -/
inductive CashbackStatus
  | ELIGIBLE
  | PENDING
  | PROCESSED
  | FAILED
  | EXPIRED
  deriving DecidableEq

/-- Wallet transaction types, from the CHECK constraint on
`wallet_transactions.transaction_type`. -/
inductive TxnType
  | CREDIT
  | DEBIT
  deriving DecidableEq

/-- Vendor settlement statuses, from the CHECK constraint on
`vendor_settlements.status`. -/
inductive SettlementStatus
  | PENDING
  | PROCESSING
  | PAID
  | FAILED
  | CANCELLED
  deriving DecidableEq

/-- A row of `public.products` (the fields the engine reads). -/
structure ProductRow where
  id : Nat
  name : String
  mrp : Rat
  stock : Nat
  store_id : Nat
  deriving DecidableEq

/-- A row of `public.cart_items`. -/
structure CartRow where
  id : Nat
  user_id : Nat
  product_id : Nat
  quantity : Nat
  deriving DecidableEq

/-- One element of the `items` JSONB array of an order, as built by
`createOrderFromCart`. -/
structure OrderItem where
  product_id : Nat
  quantity : Nat
  price : Rat
  store_id : Nat
  deriving DecidableEq

/-- A row of `public.orders` (the fields the engine reads). -/
structure OrderRow where
  id : Nat
  user_id : Nat
  items : List OrderItem
  total_amount : Rat
  order_status : OrderStatus
  cashback_given : Bool
  deriving DecidableEq

/-- A row of `public.cashback`. -/
structure CashbackRow where
  id : Nat
  order_id : Nat
  user_id : Nat
  amount : Rat
  percentage : Rat
  status : CashbackStatus
  expires_at : Int
  wallet_transaction_id : Option Nat
  deriving DecidableEq

/-- A row of `public.wallets` (the fields the engine reads). -/
structure WalletRow where
  id : Nat
  user_id : Nat
  balance : Rat
  deriving DecidableEq

/-- A row of `public.wallet_transactions`. -/
structure TxnRow where
  id : Nat
  wallet_id : Nat
  transaction_type : TxnType
  amount : Rat
  description : String
  reference_id : Option Nat
  deriving DecidableEq

/-- A row of `public.vendor_settlements` (the fields `requestPayout`
touches). -/
structure SettlementRow where
  id : Nat
  order_id : Nat
  store_id : Nat
  vendor_id : Nat
  net_payout : Rat
  status : SettlementStatus
  deriving DecidableEq

/-- The transactional store: one list per table, plus a counter from which
freshly inserted rows draw their ids. -/
structure DB where
  products : List ProductRow
  cart_items : List CartRow
  orders : List OrderRow
  cashbacks : List CashbackRow
  wallets : List WalletRow
  wallet_transactions : List TxnRow
  settlements : List SettlementRow
  nextId : Nat
  deriving DecidableEq

/-- Well-formedness of a store state: primary keys are unique per table and
every id already issued (also every wallet id referenced by a transaction)
is below the fresh-id counter. -/
def DB.WF (db : DB) : Prop :=
  (db.orders.map (fun o => o.id)).Nodup ∧
  (db.cashbacks.map (fun c => c.id)).Nodup ∧
  (db.wallets.map (fun w => w.id)).Nodup ∧
  (db.products.map (fun p => p.id)).Nodup ∧
  (∀ o ∈ db.orders, o.id < db.nextId) ∧
  (∀ c ∈ db.cashbacks, c.id < db.nextId) ∧
  (∀ w ∈ db.wallets, w.id < db.nextId) ∧
  (∀ t ∈ db.wallet_transactions, t.wallet_id < db.nextId)

instance (db : DB) : Decidable db.WF := by
  unfold DB.WF; infer_instance

/-! ## Operations embedded from the source -/

/-- `cashbackService.calculateCashback` (cashbackService.ts lines 11 to 13):
five percent of the order amount.  The source multiplies by the decimal
literal 0.05, which is the exact rational 5/100. -/
def calculateCashback (orderAmount : Rat) : Rat :=
  orderAmount * (5 / 100)

/-- Modelled from the spec: the database function `create_user_wallet`
invoked by `walletService.getUserWallet` is not among the repository
sources.  Per spec section 4.4, wallet creation is lazy and idempotent: the
first access for a user creates a zero-balance wallet exactly once.  This
helper returns the user's wallet, creating it when absent, exactly as the
`getUserWallet` select-then-create sequence does. -/
def getOrCreateWallet (db : DB) (userId : Nat) : DB × WalletRow :=
  match db.wallets.find? (fun w => w.user_id = userId) with
  | some w => (db, w)
  | none =>
      let w : WalletRow := ⟨db.nextId, userId, 0⟩
      ({ db with wallets := db.wallets ++ [w], nextId := db.nextId + 1 }, w)

/-- Modelled from the spec: the database function
`process_cashback_to_wallet` is invoked by
`cashbackService.processCashbackForOrder` and
`walletService.processCashbackToWallet`, but its body is not among the
repository sources.  Per spec section 4.3 it moves an ELIGIBLE cashback to
PROCESSED by crediting the wallet ledger, records the wallet-transaction
reference and flips the order's `cashback_given` flag, all in one
transaction; a cashback that is not in ELIGIBLE state is left untouched. -/
def process_cashback_to_wallet (db : DB) (cashbackId : Nat) : DB :=
  match db.cashbacks.find? (fun c => c.id = cashbackId) with
  | none => db
  | some c =>
      if c.status = CashbackStatus.ELIGIBLE then
        let pair := getOrCreateWallet db c.user_id
        let db1 := pair.1
        let w := pair.2
        let txnId := db1.nextId
        let t : TxnRow := ⟨txnId, w.id, TxnType.CREDIT, c.amount, "Cashback credited", some c.id⟩
        { db1 with
          wallet_transactions := db1.wallet_transactions ++ [t],
          wallets := db1.wallets.map (fun w2 =>
            if w2.id = w.id then { w2 with balance := w.balance + c.amount } else w2),
          cashbacks := db1.cashbacks.map (fun c2 =>
            if c2.id = cashbackId then
              { c2 with status := CashbackStatus.PROCESSED, wallet_transaction_id := some txnId }
            else c2),
          orders := db1.orders.map (fun o =>
            if o.id = c.order_id then { o with cashback_given := true } else o),
          nextId := txnId + 1 }
      else db

/-- `cashbackService.processCashbackForOrder` (cashbackService.ts lines 49
to 103): fetch the order; return without side effects unless it is
DELIVERED with `cashback_given` still false; process an existing cashback
row if one exists, otherwise insert a fresh ELIGIBLE row (5 percent of the
order total, expiring 30 days from `now`) and process it immediately.
The returned row is the value the service returns to its caller (for a
fresh row, the inserted snapshot). -/
def processCashbackForOrder (db : DB) (now : Int) (orderId : Nat) :
    DB × Except String (Option CashbackRow) :=
  match db.orders.find? (fun o => o.id = orderId) with
  | none => (db, .error "Order not found")
  | some order =>
      if order.order_status ≠ OrderStatus.DELIVERED ∨ order.cashback_given = true then
        (db, .ok none)
      else
        match db.cashbacks.find? (fun c => c.order_id = orderId) with
        | some existing =>
            (process_cashback_to_wallet db existing.id, .ok (some existing))
        | none =>
            let cbId := db.nextId
            let row : CashbackRow :=
              ⟨cbId, orderId, order.user_id, calculateCashback order.total_amount, 5,
                CashbackStatus.ELIGIBLE, now + 30 * 24 * 60 * 60 * 1000, none⟩
            let db1 := { db with cashbacks := db.cashbacks ++ [row], nextId := cbId + 1 }
            (process_cashback_to_wallet db1 cbId, .ok (some row))

/-- `cashbackService.markCashbackAsExpired` (cashbackService.ts lines 133
to 141): set status EXPIRED on the row with the given id, but only where
the status is still ELIGIBLE (both conditions are `eq` filters of the
update). -/
def markCashbackAsExpired (db : DB) (cashbackId : Nat) : DB :=
  { db with cashbacks := db.cashbacks.map (fun c =>
      if c.id = cashbackId ∧ c.status = CashbackStatus.ELIGIBLE then
        { c with status := CashbackStatus.EXPIRED }
      else c) }

/-- `walletService.addBalance` (walletService.ts lines 108 to 137): get or
lazily create the wallet, insert a CREDIT transaction with the given
amount, then set the wallet balance to the previously read balance plus the
amount.  The source performs no validation of the amount. -/
def addBalance (db : DB) (userId : Nat) (amount : Rat) (description : String) :
    DB × Except String TxnRow :=
  let pair := getOrCreateWallet db userId
  let db1 := pair.1
  let w := pair.2
  let t : TxnRow := ⟨db1.nextId, w.id, TxnType.CREDIT, amount, description, none⟩
  ({ db1 with
     wallet_transactions := db1.wallet_transactions ++ [t],
     wallets := db1.wallets.map (fun w2 =>
       if w2.id = w.id then { w2 with balance := w.balance + amount } else w2),
     nextId := db1.nextId + 1 }, .ok t)

/-- Modelled from the spec: the database function `use_wallet_balance`
invoked by `walletService.useWalletBalance` is not among the repository
sources.  Per spec section 4.4, the debit fails with InsufficientBalance
when the balance is below the amount, and otherwise inserts a DEBIT
transaction and decreases the balance in the same transaction. -/
def use_wallet_balance (db : DB) (userId orderId : Nat) (amount : Rat) :
    DB × Except String Bool :=
  match db.wallets.find? (fun w => w.user_id = userId) with
  | none => (db, .error "Wallet not found")
  | some w =>
      if w.balance < amount then (db, .error "InsufficientBalance")
      else
        let t : TxnRow := ⟨db.nextId, w.id, TxnType.DEBIT, amount, "Order payment", some orderId⟩
        ({ db with
           wallet_transactions := db.wallet_transactions ++ [t],
           wallets := db.wallets.map (fun w2 =>
             if w2.id = w.id then { w2 with balance := w.balance - amount } else w2),
           nextId := db.nextId + 1 }, .ok true)

/-- The spec's legal order-status transition table (section 4.2).  This
definition transcribes the table stated in the spec; it is both the
reference the code's behaviour is compared against and the model of the
`update_order_status` database function below. -/
def specLegalTransition : OrderStatus → OrderStatus → Bool
  | .CREATED, .PAID => true
  | .CREATED, .CANCELLED => true
  | .PAID, .SHIPPED => true
  | .PAID, .CANCELLED => true
  | .SHIPPED, .DELIVERED => true
  | .SHIPPED, .RETURNED => true
  | .DELIVERED, .RETURNED => true
  | _, _ => false

/-- Modelled from the spec: the database function `update_order_status`
invoked by `orderService.updateOrderStatus` is not among the repository
sources.  Per spec section 4.2 it validates the requested transition
against the legal transition table and applies it, failing with
InvalidStatusTransition otherwise.  (The delivery-time side effects flow
through `confirmDelivery` and `processCashbackForOrder` in the service
layer and are embedded separately.) -/
def update_order_status (db : DB) (orderId : Nat) (newStatus : OrderStatus) :
    DB × Except String Bool :=
  match db.orders.find? (fun o => o.id = orderId) with
  | none => (db, .error "Order not found")
  | some o =>
      if specLegalTransition o.order_status newStatus then
        ({ db with orders := db.orders.map (fun o2 =>
            if o2.id = orderId then { o2 with order_status := newStatus } else o2) },
         .ok true)
      else (db, .error "InvalidStatusTransition")

/-- Modelled from the spec: the database function `restore_product_stock`
invoked by `orderService.cancelOrder` is not among the repository sources.
Per spec section 4.2 cancellation restores stock for every line, so the
function adds the given quantity back to the product's stock. -/
def restore_product_stock (db : DB) (productId quantity : Nat) : DB :=
  { db with products := db.products.map (fun p =>
      if p.id = productId then { p with stock := p.stock + quantity } else p) }

/-- The loop of `cancelOrder` over the order's line items, invoking
`restore_product_stock` once per line. -/
def restoreAllStock (db : DB) (items : List OrderItem) : DB :=
  items.foldl (fun d it => restore_product_stock d it.product_id it.quantity) db

/-- `orderService.cancelOrder` (orderService.ts lines 258 to 283): fetch
the order; reject SHIPPED and DELIVERED orders; otherwise restore stock
for every line item and then request the CANCELLED status through
`update_order_status`.  Note that the stock restoration happens before the
status update is attempted. -/
def cancelOrder (db : DB) (orderId : Nat) (reason : String) : DB × Except String Bool :=
  match db.orders.find? (fun o => o.id = orderId) with
  | none => (db, .error "Order not found")
  | some order =>
      if order.order_status = OrderStatus.SHIPPED ∨ order.order_status = OrderStatus.DELIVERED then
        (db, .error "Cannot cancel shipped or delivered orders")
      else
        update_order_status (restoreAllStock db order.items) orderId OrderStatus.CANCELLED

/-- An order as the client-side guard of the audit document sees it. -/
structure ClientOrder where
  id : Nat
  status : OrderStatus
  deriving DecidableEq

/-- The `validTransitions` table of `updateOrderStatus` in the audit
document (unnamed part 000, lines 1901 to 1922): only ORDER_PLACED,
PROCESSING, SHIPPED and DELIVERED appear as keys; looking up any other
status yields no entry. -/
def validTransitions : OrderStatus → Option (List OrderStatus)
  | .ORDER_PLACED => some [.PROCESSING]
  | .PROCESSING => some [.SHIPPED]
  | .SHIPPED => some [.DELIVERED]
  | .DELIVERED => some []
  | _ => none

/-- `updateOrderStatus` from the audit document (unnamed part 000, lines
1901 to 1922): find the order in the local list; when found, permit the
update only if the requested status is in the `validTransitions` entry for
the current status (a current status with no entry makes the
`allowed.includes` call fail); when the order is not found the check is
skipped and the update proceeds. -/
def updateOrderStatus (orders : List ClientOrder) (orderId : Nat) (status : OrderStatus) :
    Except String Unit :=
  match orders.find? (fun o => o.id = orderId) with
  | some o =>
      match validTransitions o.status with
      | some allowed =>
          if status ∈ allowed then .ok () else .error "Invalid status transition"
      | none => .error "TypeError: allowed is undefined"
  | none => .ok ()

/-- `vendorService.requestPayout` (vendorService.ts lines 218 to 233): set
status PROCESSING on the settlement rows matching the id, the calling
vendor and status PENDING; the trailing `.single()` succeeds exactly when
one row matched, and the untouched state is returned otherwise. -/
def requestPayout (db : DB) (settlementId vendorId : Nat) :
    DB × Except String SettlementRow :=
  let db1 := { db with settlements := db.settlements.map (fun s =>
      if s.id = settlementId ∧ s.vendor_id = vendorId ∧ s.status = SettlementStatus.PENDING then
        { s with status := SettlementStatus.PROCESSING }
      else s) }
  match db.settlements.filter (fun s =>
      s.id = settlementId ∧ s.vendor_id = vendorId ∧ s.status = SettlementStatus.PENDING) with
  | [s0] => (db1, .ok { s0 with status := SettlementStatus.PROCESSING })
  | _ => (db1, .error "No matching pending settlement")

/-- A cart line of the order-creation request body
(`app/api/orders/create/route.js`): the zod schema admits an id, a
positive quantity and a positive caller-supplied price. -/
structure ReqItem where
  id : String
  quantity : Rat
  price : Rat
  deriving DecidableEq

/-- The POST handler of `app/api/orders/create/route.js` (lines 18 to 59):
after zod validation, the returned total is accumulated as
`calculatedTotal += item.price * item.quantity` over the request items,
using the caller-supplied price of each line. -/
def postOrderCreate (items : List ReqItem) : Except String Rat :=
  if ∀ it ∈ items, 0 < it.quantity ∧ 0 < it.price then
    .ok (items.foldl (fun s it => s + it.price * it.quantity) 0)
  else .error "Invalid input data"

/-- `orderService.getUserCart` (orderService.ts lines 161 to 177): the
user's cart rows joined with their products, with rows whose product
lookup returned null filtered out. -/
def getUserCart (db : DB) (userId : Nat) : List (CartRow × ProductRow) :=
  (db.cart_items.filter (fun ci => ci.user_id = userId)).filterMap
    (fun ci => (db.products.find? (fun p => p.id = ci.product_id)).map (fun p => (ci, p)))

/-- `orderService.clearCart` (orderService.ts lines 180 to 187): delete
every cart row of the user. -/
def clearCart (db : DB) (userId : Nat) : DB :=
  { db with cart_items := db.cart_items.filter (fun ci => ¬ ci.user_id = userId) }

/-- Modelled from the spec: the database function `create_order` that
`createOrderFromCart` invokes (with user, items, total and addresses) is
not among the repository sources.  Per spec section 4.2 it re-verifies
stock at commit time (failing the whole operation otherwise), decrements
stock per line and inserts the Order row with the server-computed total. -/
def create_order (db : DB) (userId : Nat) (items : List OrderItem) (totalAmount : Rat) :
    DB × Except String Nat :=
  if ∀ it ∈ items, ∃ p ∈ db.products, p.id = it.product_id ∧ it.quantity ≤ p.stock then
    let oid := db.nextId
    ({ db with
       products := db.products.map (fun p =>
         { p with stock := p.stock -
             (((items.filter (fun it => it.product_id = p.id)).map (fun it => it.quantity)).sum) }),
       orders := db.orders ++ [⟨oid, userId, items, totalAmount, OrderStatus.CREATED, false⟩],
       nextId := oid + 1 }, .ok oid)
  else (db, .error "InsufficientStock")

/-- `orderService.createOrderFromCart` (orderService.ts lines 15 to 88):
read the user's cart (product-less rows already filtered out), fail on an
empty cart, fail when any line's product has falsy or insufficient stock,
build the order lines with the stored `mrp` price snapshot, accumulate the
total from stored prices, create the order through `create_order`, and on
success clear the user's cart. -/
def createOrderFromCart (db : DB) (userId : Nat) : DB × Except String Nat :=
  if getUserCart db userId = [] then (db, .error "Cart is empty")
  else if ∀ x ∈ getUserCart db userId, ¬ (x.2.stock = 0 ∨ x.2.stock < x.1.quantity) then
    match create_order db userId
        ((getUserCart db userId).map (fun x =>
          OrderItem.mk x.1.product_id x.1.quantity x.2.mrp x.2.store_id))
        (((getUserCart db userId).map (fun x => x.2.mrp * (x.1.quantity : Rat))).sum) with
    | (db1, .ok oid) => (clearCart db1 userId, .ok oid)
    | (db1, .error e) => (db1, .error e)
  else (db, .error "Insufficient stock")

/-! ## General helpers -/

/-- Convert an `Except` to a `Sum` to borrow its decidable equality. -/
def exceptToSum {ε α : Type} : Except ε α → Sum ε α
  | .error e => .inl e
  | .ok a => .inr a

instance {ε α : Type} [DecidableEq ε] [DecidableEq α] : DecidableEq (Except ε α) :=
  fun x y =>
    decidable_of_iff (exceptToSum x = exceptToSum y)
      (by cases x <;> cases y <;> simp [exceptToSum])

/-- In a list whose keys are distinct, the member of the mapped list sharing
a key with a member of the original list is the image of that member,
provided the mapping preserves keys. -/
theorem mem_map_key_eq {α : Type} (key : α → Nat) (f : α → α)
    (hf : ∀ x, key (f x) = key x) {l : List α}
    (hnd : (l.map key).Nodup) {a b : α} (ha : a ∈ l) (hb : b ∈ l.map f)
    (hk : key b = key a) : b = f a := by
  obtain ⟨x, hx, rfl⟩ := List.mem_map.mp hb
  have hxa : x = a := by
    apply List.inj_on_of_nodup_map hnd hx ha
    calc key x = key (f x) := (hf x).symm
    _ = key a := hk
  rw [hxa]

/-- Mapping a guarded update over a list where no element satisfies the
guard is the identity. -/
theorem map_guard_id {α : Type} {l : List α} (p : α → Prop) [DecidablePred p]
    (f : α → α) (h : ∀ a ∈ l, ¬ p a) :
    (l.map fun a => if p a then f a else a) = l := by
  induction l with
  | nil => rfl
  | cons a l ih =>
      simp only [List.map_cons, if_neg (h a (List.mem_cons_self a l))]
      rw [ih (fun b hb => h b (List.mem_cons_of_mem a hb))]

/-! ## Claim C1 -/

/-- Claim C1: refuted on the order-creation API route.  The route's POST
handler accumulates the committed total as the sum of
`item.price * item.quantity` over the request body, using each line's
caller-supplied price: two requests differing only in the caller-supplied
price of their single line yield totals 10 and 20.  (The handler's own
comments state the total must be recalculated server-side from stored
prices, so the caller-priced computation contradicts the code's stated
intent.) -/
theorem C1_route_uses_caller_price :
    postOrderCreate [⟨"p1", 1, 10⟩] = .ok 10 ∧
    postOrderCreate [⟨"p1", 1, 20⟩] = .ok 20 := by
  constructor <;> norm_num [postOrderCreate]

/-! ## Claim C3 -/

/-- Claim C3: counterexample.  The status-transition guard in the source
permits ORDER_PLACED to PROCESSING, a transition that is not in the
claimed legal table (so the claim says it must fail), and rejects CREATED
to PAID, which the claimed table permits. -/
theorem C3_counterexample :
    updateOrderStatus [⟨1, OrderStatus.ORDER_PLACED⟩] 1 OrderStatus.PROCESSING = .ok () ∧
    specLegalTransition OrderStatus.ORDER_PLACED OrderStatus.PROCESSING = false ∧
    updateOrderStatus [⟨2, OrderStatus.CREATED⟩] 2 OrderStatus.PAID ≠ .ok () ∧
    specLegalTransition OrderStatus.CREATED OrderStatus.PAID = true := by
  decide

/-- Claim C3 as amended: for every order found in the list, the
`updateOrderStatus` guard of the source permits exactly the transitions
ORDER_PLACED to PROCESSING, PROCESSING to SHIPPED and SHIPPED to
DELIVERED; every other requested transition is rejected (DELIVERED has an
empty entry and is terminal, and a current status absent from the table,
including CANCELLED, permits nothing). -/
theorem C3_amended (orders : List ClientOrder) (orderId : Nat) (o : ClientOrder)
    (target : OrderStatus) (h : orders.find? (fun x => x.id = orderId) = some o) :
    updateOrderStatus orders orderId target = .ok () ↔
      ((o.status = OrderStatus.ORDER_PLACED ∧ target = OrderStatus.PROCESSING) ∨
       (o.status = OrderStatus.PROCESSING ∧ target = OrderStatus.SHIPPED) ∨
       (o.status = OrderStatus.SHIPPED ∧ target = OrderStatus.DELIVERED)) := by
  unfold updateOrderStatus
  rw [h]
  obtain ⟨i, st⟩ := o
  cases st <;> cases target <;> simp [validTransitions]

/-- Witness for the amended claim C3 at a concrete order list. -/
theorem C3_amended_witness :
    updateOrderStatus [⟨5, OrderStatus.PROCESSING⟩] 5 OrderStatus.SHIPPED = .ok () :=
  (C3_amended [⟨5, OrderStatus.PROCESSING⟩] 5 ⟨5, OrderStatus.PROCESSING⟩
    OrderStatus.SHIPPED (by decide)).mpr (Or.inr (Or.inl ⟨rfl, rfl⟩))

/-! ## Claim C6 -/

/-- Claim C6 as amended: the wallet credit operation `addBalance` performs
no validation of the amount at all: for every amount, including zero and
negative ones, it succeeds, inserting exactly one CREDIT transaction with
that amount and setting the wallet balance to the previously read balance
plus that amount. -/
theorem C6_addBalance_no_validation (db : DB) (userId : Nat) (amount : Rat)
    (description : String) (w : WalletRow)
    (h : db.wallets.find? (fun x => x.user_id = userId) = some w) :
    addBalance db userId amount description =
      ({ db with
         wallet_transactions := db.wallet_transactions ++
           [⟨db.nextId, w.id, TxnType.CREDIT, amount, description, none⟩],
         wallets := db.wallets.map (fun w2 =>
           if w2.id = w.id then { w2 with balance := w.balance + amount } else w2),
         nextId := db.nextId + 1 },
       .ok ⟨db.nextId, w.id, TxnType.CREDIT, amount, description, none⟩) := by
  unfold addBalance getOrCreateWallet
  rw [h]

/-- A store with one wallet for user 7 holding balance 10. -/
def C6db : DB := ⟨[], [], [], [], [⟨1, 7, 10⟩], [], [], 2⟩

/-- Claim C6: counterexample.  Crediting the non-positive amount -5 is not
rejected with InvalidAmount: it succeeds, records a CREDIT transaction of
-5 and lowers the balance from 10 to 5. -/
theorem C6_counterexample :
    (addBalance C6db 7 (-5) "manual adjustment").2 =
      .ok ⟨2, 1, TxnType.CREDIT, -5, "manual adjustment", none⟩ ∧
    (addBalance C6db 7 (-5) "manual adjustment").1.wallets = [⟨1, 7, 5⟩] := by
  constructor <;> norm_num [addBalance, getOrCreateWallet, C6db, List.find?]

/-- Witness for the amended claim C6 at a concrete wallet and a positive
amount. -/
theorem C6_amended_witness :
    (addBalance C6db 7 3 "bonus").2 = .ok ⟨2, 1, TxnType.CREDIT, 3, "bonus", none⟩ :=
  congrArg Prod.snd
    (C6_addBalance_no_validation C6db 7 3 "bonus" ⟨1, 7, 10⟩ (by decide))

/-! ## Claim C9 -/

/-- Claim C9: `requestPayout` succeeds exactly when the named settlement
row carries the calling vendor's id and is in PENDING status, in which
case that row (and only that row) transitions to PROCESSING; when no row
matches all three conditions the operation fails and the store is
unchanged. -/
theorem C9_requestPayout (db : DB) (settlementId vendorId : Nat) :
    (∀ s0, db.settlements.filter (fun s =>
        s.id = settlementId ∧ s.vendor_id = vendorId ∧
          s.status = SettlementStatus.PENDING) = [s0] →
      s0.id = settlementId ∧ s0.vendor_id = vendorId ∧
      s0.status = SettlementStatus.PENDING ∧
      requestPayout db settlementId vendorId =
        ({ db with settlements := db.settlements.map (fun s =>
            if s.id = settlementId ∧ s.vendor_id = vendorId ∧
                s.status = SettlementStatus.PENDING then
              { s with status := SettlementStatus.PROCESSING }
            else s) },
         .ok { s0 with status := SettlementStatus.PROCESSING })) ∧
    (db.settlements.filter (fun s =>
        s.id = settlementId ∧ s.vendor_id = vendorId ∧
          s.status = SettlementStatus.PENDING) = [] →
      requestPayout db settlementId vendorId =
        (db, .error "No matching pending settlement")) := by
  constructor
  · intro s0 hfilter
    have hmem : s0 ∈ db.settlements.filter (fun s =>
        s.id = settlementId ∧ s.vendor_id = vendorId ∧
          s.status = SettlementStatus.PENDING) := by
      rw [hfilter]; exact List.mem_singleton.mpr rfl
    have hpred := List.of_mem_filter hmem
    simp only [decide_eq_true_eq] at hpred
    refine ⟨hpred.1, hpred.2.1, hpred.2.2, ?_⟩
    unfold requestPayout
    rw [hfilter]
  · intro hfilter
    have hnone : ∀ s ∈ db.settlements,
        ¬ (s.id = settlementId ∧ s.vendor_id = vendorId ∧
            s.status = SettlementStatus.PENDING) := by
      intro s hs
      have := List.filter_eq_nil_iff.mp hfilter s hs
      simpa using this
    unfold requestPayout
    rw [hfilter, map_guard_id _ _ hnone]

/-- A store with one PENDING settlement for vendor 11. -/
def C9db : DB := ⟨[], [], [], [], [], [], [⟨4, 9, 3, 11, 100, SettlementStatus.PENDING⟩], 5⟩

/-- Witness for claim C9: the matching vendor moves the PENDING settlement
to PROCESSING, and a non-matching vendor is rejected with the store
unchanged. -/
theorem C9_witness :
    (requestPayout C9db 4 11).2 =
      .ok ⟨4, 9, 3, 11, 100, SettlementStatus.PROCESSING⟩ ∧
    requestPayout C9db 4 12 = (C9db, .error "No matching pending settlement") :=
  ⟨congrArg Prod.snd
      (((C9_requestPayout C9db 4 11).1 ⟨4, 9, 3, 11, 100, SettlementStatus.PENDING⟩
        (by decide)).2.2.2),
   (C9_requestPayout C9db 4 12).2 (by decide)⟩

/-! ## Claim C5 -/

/-- Restoring stock only touches the products table. -/
theorem restoreAllStock_orders (db : DB) (items : List OrderItem) :
    (restoreAllStock db items).orders = db.orders := by
  unfold restoreAllStock
  induction items generalizing db with
  | nil => rfl
  | cons it items ih => exact ih _

/-- A store holding an already-CANCELLED order for two units of product 2,
which has 5 units in stock. -/
def C5db : DB :=
  ⟨[⟨2, "X", 10, 5, 3⟩], [],
   [⟨1, 7, [⟨2, 2, 10, 3⟩], 20, OrderStatus.CANCELLED, false⟩],
   [], [], [], [], 20⟩

/-- Claim C5: counterexample.  Cancelling an order that is already
CANCELLED does not fail with CannotCancelShippedOrDelivered, and it does
not leave the store unchanged: the guard only rejects SHIPPED and
DELIVERED, so the stock of product 2 is restored a second time (5 becomes
7) before the status update fails. -/
theorem C5_counterexample :
    (cancelOrder C5db 1 "duplicate cancel").2 ≠
      .error "Cannot cancel shipped or delivered orders" ∧
    (cancelOrder C5db 1 "duplicate cancel").1 ≠ C5db ∧
    (cancelOrder C5db 1 "duplicate cancel").1.products = [⟨2, "X", 10, 7, 3⟩] := by
  refine ⟨by decide, ?_, by decide⟩
  intro h
  have : C5db.products = [⟨2, "X", 10, 7, 3⟩] := by
    rw [← h]
    decide
  simp [C5db] at this

/-- Claim C5 as amended: `cancelOrder` fails with
CannotCancelShippedOrDelivered, changing nothing, exactly when the order
is SHIPPED or DELIVERED; from CREATED or PAID it restores the stock of
every line item by the ordered quantity and sets the status to CANCELLED;
from CANCELLED or RETURNED it also restores the stock of every line item
and only then fails, with InvalidStatusTransition rather than
CannotCancelShippedOrDelivered, leaving the status unchanged but the stock
incremented. -/
theorem C5_amended (db : DB) (orderId : Nat) (reason : String) (o : OrderRow)
    (h : db.orders.find? (fun x => x.id = orderId) = some o) :
    ((o.order_status = OrderStatus.SHIPPED ∨ o.order_status = OrderStatus.DELIVERED) →
      cancelOrder db orderId reason =
        (db, .error "Cannot cancel shipped or delivered orders")) ∧
    ((o.order_status = OrderStatus.CREATED ∨ o.order_status = OrderStatus.PAID) →
      cancelOrder db orderId reason =
        ({ restoreAllStock db o.items with
           orders := (restoreAllStock db o.items).orders.map (fun o2 =>
             if o2.id = orderId then { o2 with order_status := OrderStatus.CANCELLED }
             else o2) },
         .ok true)) ∧
    ((o.order_status = OrderStatus.CANCELLED ∨ o.order_status = OrderStatus.RETURNED) →
      cancelOrder db orderId reason =
        (restoreAllStock db o.items, .error "InvalidStatusTransition")) := by
  refine ⟨?_, ?_, ?_⟩ <;> rintro (hs | hs) <;>
    simp [cancelOrder, h, hs, update_order_status, restoreAllStock_orders,
      specLegalTransition]

/-- A store holding a PAID order for two units of product 2. -/
def C5wdb : DB :=
  ⟨[⟨2, "X", 10, 5, 3⟩], [],
   [⟨1, 7, [⟨2, 2, 10, 3⟩], 20, OrderStatus.PAID, false⟩],
   [], [], [], [], 20⟩

/-- Witness for the amended claim C5: cancelling a PAID order succeeds,
restoring the stock and marking the order CANCELLED. -/
theorem C5_amended_witness :
    cancelOrder C5wdb 1 "changed my mind" =
      ({ restoreAllStock C5wdb [⟨2, 2, 10, 3⟩] with
         orders := (restoreAllStock C5wdb [⟨2, 2, 10, 3⟩]).orders.map (fun o2 =>
           if o2.id = 1 then { o2 with order_status := OrderStatus.CANCELLED } else o2) },
       .ok true) :=
  (C5_amended C5wdb 1 "changed my mind" ⟨1, 7, [⟨2, 2, 10, 3⟩], 20, OrderStatus.PAID, false⟩
    (by decide)).2.1 (Or.inr rfl)

/-! ## Claim C8 -/

/-- Claim C8: for a DELIVERED order without cashback yet and with no
existing cashback row, `processCashbackForOrder` returns a newly created
cashback row whose amount is the order total times the 5 percent policy
constant, whose status is ELIGIBLE and whose expiry lies 30 days
(in milliseconds) after the creation instant. -/
theorem C8_cashback_amount (db : DB) (now : Int) (orderId : Nat) (o : OrderRow)
    (h1 : db.orders.find? (fun x => x.id = orderId) = some o)
    (h2 : o.order_status = OrderStatus.DELIVERED)
    (h3 : o.cashback_given = false)
    (h4 : db.cashbacks.find? (fun c => c.order_id = orderId) = none) :
    (processCashbackForOrder db now orderId).2 =
      .ok (some ⟨db.nextId, orderId, o.user_id, o.total_amount * (5 / 100), 5,
        CashbackStatus.ELIGIBLE, now + 30 * 24 * 60 * 60 * 1000, none⟩) := by
  simp [processCashbackForOrder, h1, h2, h3, h4, calculateCashback]

/-- A store holding a DELIVERED order with total 180 for user 7, no
cashback row and a zero-balance wallet. -/
def C8db : DB := ⟨[], [], [⟨1, 7, [], 180, OrderStatus.DELIVERED, false⟩], [], [⟨2, 7, 0⟩], [], [], 3⟩

/-- Witness for claim C8: the order with total 180 yields a cashback row
of exactly 9.00, ELIGIBLE, expiring 2592000000 milliseconds (30 days)
after creation. -/
theorem C8_witness :
    (processCashbackForOrder C8db 0 1).2 =
      .ok (some ⟨3, 1, 7, 9, 5, CashbackStatus.ELIGIBLE, 2592000000, none⟩) := by
  have h := C8_cashback_amount C8db 0 1 ⟨1, 7, [], 180, OrderStatus.DELIVERED, false⟩
    (by decide) rfl rfl (by decide)
  rw [h]
  norm_num [C8db]

/-! ## Claim C10 -/

/-- Claim C10: after a successful `createOrderFromCart` every cart row of
the user is deleted, including rows whose product lookup returned null,
and the created order's line items correspond exactly to the cart rows
whose product lookup succeeded, so a cart line referencing a missing
product is silently discarded rather than ordered or kept. -/
theorem C10_missing_product_lines (db : DB) (userId : Nat) (db' : DB) (oid : Nat)
    (h : createOrderFromCart db userId = (db', .ok oid)) :
    db'.cart_items = db.cart_items.filter (fun ci => ¬ ci.user_id = userId) ∧
    ∃ o ∈ db'.orders, o.id = oid ∧
      o.items.map (fun it => it.product_id) =
        (getUserCart db userId).map (fun x => x.1.product_id) ∧
      ∀ it ∈ o.items, ∃ p ∈ db.products, p.id = it.product_id := by
  unfold createOrderFromCart at h
  split at h
  · exact absurd (congrArg Prod.snd h) (by simp)
  · split at h
    · split at h
      next db1 oid1 heq =>
        unfold create_order at heq
        split at heq
        · rw [Prod.mk.injEq] at heq h
          obtain ⟨hdb1, hoid1⟩ := heq
          obtain ⟨hdb', hoid⟩ := h
          have hoi : oid = db.nextId := by
            rw [← hoid1] at hoid
            exact (Except.ok.injEq _ _).mp hoid.symm
          refine ⟨?_, ?_⟩
          · rw [← hdb', ← hdb1]
            rfl
          · refine ⟨⟨db.nextId, userId,
              (getUserCart db userId).map (fun x =>
                OrderItem.mk x.1.product_id x.1.quantity x.2.mrp x.2.store_id),
              ((getUserCart db userId).map (fun x => x.2.mrp * (x.1.quantity : Rat))).sum,
              OrderStatus.CREATED, false⟩, ?_, hoi.symm, ?_, ?_⟩
            · rw [← hdb', ← hdb1]
              exact List.mem_append_right _ (List.mem_singleton.mpr rfl)
            · rw [List.map_map]
              rfl
            · intro it hit
              obtain ⟨x, hx, rfl⟩ := List.mem_map.mp hit
              have hx' : x ∈ (db.cart_items.filter
                  (fun ci => ci.user_id = userId)).filterMap
                  (fun ci => (db.products.find? (fun p => p.id = ci.product_id)).map
                    (fun p => (ci, p))) := hx
              obtain ⟨ci, _, hf⟩ := List.mem_filterMap.mp hx'
              obtain ⟨p, hp, hpx⟩ := Option.map_eq_some'.mp hf
              refine ⟨p, List.mem_of_find?_eq_some hp, ?_⟩
              have hid : p.id = ci.product_id := by
                have := List.find?_some hp
                simpa using this
              have hx1 : x.1 = ci := by rw [← hpx]
              rw [hid, ← hx1]
        · rw [Prod.mk.injEq] at heq
          exact absurd heq.2 (by simp)
      next db1 e heq =>
        exact absurd (congrArg Prod.snd h) (by simp)
    · exact absurd (congrArg Prod.snd h) (by simp)

/-- A store where user 7 has two cart rows: one for the existing product 1
and one referencing the missing product 99. -/
def W10db : DB := ⟨[⟨1, "A", 10, 5, 3⟩], [⟨10, 7, 1, 2⟩, ⟨11, 7, 99, 1⟩], [], [], [], [], [], 20⟩

/-- Witness for claim C10 at a concrete store: both cart rows of user 7
are deleted and the created order only references the existing product. -/
theorem C10_witness :
    (createOrderFromCart W10db 7).1.cart_items =
      W10db.cart_items.filter (fun ci => ¬ ci.user_id = 7) ∧
    ∃ o ∈ (createOrderFromCart W10db 7).1.orders, o.id = 20 ∧
      o.items.map (fun it => it.product_id) =
        (getUserCart W10db 7).map (fun x => x.1.product_id) ∧
      ∀ it ∈ o.items, ∃ p ∈ W10db.products, p.id = it.product_id := by
  have hsnd : (createOrderFromCart W10db 7).2 = .ok 20 := by decide
  have hpair : createOrderFromCart W10db 7 = ((createOrderFromCart W10db 7).1, .ok 20) := by
    rw [← hsnd]
  exact C10_missing_product_lines W10db 7 (createOrderFromCart W10db 7).1 20 hpair

/-! ## Claim C7 -/

/-- Wallet creation only touches the wallets table and the id counter. -/
theorem getOrCreateWallet_cashbacks (db : DB) (u : Nat) :
    (getOrCreateWallet db u).1.cashbacks = db.cashbacks := by
  unfold getOrCreateWallet
  cases db.wallets.find? (fun w => w.user_id = u) <;> rfl

/-- Wallet creation leaves the orders table unchanged. -/
theorem getOrCreateWallet_orders (db : DB) (u : Nat) :
    (getOrCreateWallet db u).1.orders = db.orders := by
  unfold getOrCreateWallet
  cases db.wallets.find? (fun w => w.user_id = u) <;> rfl

/-- Wallet creation leaves the transaction log unchanged. -/
theorem getOrCreateWallet_txns (db : DB) (u : Nat) :
    (getOrCreateWallet db u).1.wallet_transactions = db.wallet_transactions := by
  unfold getOrCreateWallet
  cases db.wallets.find? (fun w => w.user_id = u) <;> rfl

/-- If a cashback row's status changes across `process_cashback_to_wallet`,
the row was ELIGIBLE and is now PROCESSED. -/
theorem process_to_wallet_status (db : DB) (cid : Nat)
    (hnd : (db.cashbacks.map (fun x => x.id)).Nodup)
    {c c' : CashbackRow} (hc : c ∈ db.cashbacks)
    (hc' : c' ∈ (process_cashback_to_wallet db cid).cashbacks)
    (hid : c'.id = c.id) :
    c'.status ≠ c.status →
      c.status = CashbackStatus.ELIGIBLE ∧ c'.status = CashbackStatus.PROCESSED := by
  intro hne
  unfold process_cashback_to_wallet at hc'
  split at hc'
  · exact absurd (congrArg CashbackRow.status
      (List.inj_on_of_nodup_map hnd hc' hc hid)) hne
  next c0 hfind =>
    split at hc'
    next hst =>
      simp only [getOrCreateWallet_cashbacks] at hc'
      have hce := mem_map_key_eq (fun x => x.id) _
        (by intro x; dsimp only; split <;> rfl) hnd hc hc' hid
      by_cases hcc : c.id = cid
      · have hc0mem := List.mem_of_find?_eq_some hfind
        have hc0id : c0.id = cid := by simpa using List.find?_some hfind
        have hcc0 : c0 = c :=
          List.inj_on_of_nodup_map hnd hc0mem hc (hc0id.trans hcc.symm)
        refine ⟨hcc0 ▸ hst, ?_⟩
        rw [hce, if_pos hcc]
      · rw [hce, if_neg hcc] at hne
        exact absurd rfl hne
    next hst =>
      exact absurd (congrArg CashbackRow.status
        (List.inj_on_of_nodup_map hnd hc' hc hid)) hne

/-- An operation of the cashback engine: the expiry sweep step, the
order-delivery processing entry point, or the direct wallet-processing
database call. -/
inductive CashbackOp
  | expire (cashbackId : Nat)
  | processOrder (now : Int) (orderId : Nat)
  | processToWallet (cashbackId : Nat)

/-- The state reached by running one cashback-engine operation. -/
def applyCashbackOp (db : DB) : CashbackOp → DB
  | .expire cid => markCashbackAsExpired db cid
  | .processOrder now oid => (processCashbackForOrder db now oid).1
  | .processToWallet cid => process_cashback_to_wallet db cid

/-- Claim C7: across any single cashback-engine operation, a cashback row
that is PROCESSED or EXPIRED keeps its status, and a row whose status
changes was ELIGIBLE and becomes PROCESSED or EXPIRED — so a record leaves
ELIGIBLE at most once and never transitions back. -/
theorem C7_eligible_leaves_once (db : DB) (op : CashbackOp) (c c' : CashbackRow)
    (hwf : db.WF) (hc : c ∈ db.cashbacks)
    (hc' : c' ∈ (applyCashbackOp db op).cashbacks) (hid : c'.id = c.id) :
    ((c.status = CashbackStatus.PROCESSED ∨ c.status = CashbackStatus.EXPIRED) →
      c'.status = c.status) ∧
    (c'.status ≠ c.status →
      c.status = CashbackStatus.ELIGIBLE ∧
      (c'.status = CashbackStatus.PROCESSED ∨ c'.status = CashbackStatus.EXPIRED)) := by
  obtain ⟨hnd_o, hnd_c, hnd_w, hnd_p, hlt_o, hlt_c, hlt_w, hlt_t⟩ := hwf
  have key : c'.status ≠ c.status →
      c.status = CashbackStatus.ELIGIBLE ∧
      (c'.status = CashbackStatus.PROCESSED ∨ c'.status = CashbackStatus.EXPIRED) := by
    intro hne
    cases op with
    | expire cid =>
        simp only [applyCashbackOp, markCashbackAsExpired] at hc'
        have hpres : ∀ x : CashbackRow,
            (if x.id = cid ∧ x.status = CashbackStatus.ELIGIBLE then
              { x with status := CashbackStatus.EXPIRED } else x).id = x.id := by
          intro x; split <;> rfl
        have hce := mem_map_key_eq (fun x => x.id) _ hpres hnd_c hc hc' hid
        by_cases hcc : c.id = cid ∧ c.status = CashbackStatus.ELIGIBLE
        · rw [hce, if_pos hcc]
          exact ⟨hcc.2, Or.inr rfl⟩
        · rw [hce, if_neg hcc] at hne
          exact absurd rfl hne
    | processToWallet cid =>
        have h := process_to_wallet_status db cid hnd_c hc hc' hid hne
        exact ⟨h.1, Or.inl h.2⟩
    | processOrder now oid =>
        simp only [applyCashbackOp] at hc'
        unfold processCashbackForOrder at hc'
        split at hc'
        · exact absurd (congrArg CashbackRow.status
            (List.inj_on_of_nodup_map hnd_c hc' hc hid)) hne
        next o hfo =>
          split at hc'
          · exact absurd (congrArg CashbackRow.status
              (List.inj_on_of_nodup_map hnd_c hc' hc hid)) hne
          · split at hc'
            next ex hfc =>
              have h := process_to_wallet_status db ex.id hnd_c hc hc' hid hne
              exact ⟨h.1, Or.inl h.2⟩
            next hfc =>
              have hnd1 : (((db.cashbacks ++
                  [(⟨db.nextId, oid, o.user_id, calculateCashback o.total_amount, 5,
                    CashbackStatus.ELIGIBLE, now + 30 * 24 * 60 * 60 * 1000, none⟩ :
                      CashbackRow)]).map (fun x => x.id))).Nodup := by
                rw [List.map_append, List.nodup_append]
                refine ⟨hnd_c, List.nodup_singleton _, ?_⟩
                intro a ha hb
                simp only [List.map_cons, List.map_nil, List.mem_singleton] at hb
                obtain ⟨x, hx, hxa⟩ := List.mem_map.mp ha
                have := hlt_c x hx
                omega
              have h := process_to_wallet_status
                { db with
                  cashbacks := db.cashbacks ++
                    [⟨db.nextId, oid, o.user_id, calculateCashback o.total_amount, 5,
                      CashbackStatus.ELIGIBLE, now + 30 * 24 * 60 * 60 * 1000, none⟩],
                  nextId := db.nextId + 1 }
                db.nextId hnd1 (List.mem_append_left _ hc) hc' hid hne
              exact ⟨h.1, Or.inl h.2⟩
  constructor
  · intro hpe
    by_contra hne
    obtain ⟨hel, _⟩ := key hne
    cases hpe with
    | inl hp => rw [hp] at hel; exact CashbackStatus.noConfusion hel
    | inr hp => rw [hp] at hel; exact CashbackStatus.noConfusion hel
  · exact key

/-- A store with a single cashback row that is already PROCESSED. -/
def C7db : DB := ⟨[], [], [], [⟨1, 2, 7, 9, 5, CashbackStatus.PROCESSED, 0, some 3⟩], [], [], [], 10⟩

/-- Witness for claim C7: the expiry sweep leaves a PROCESSED cashback row
untouched. -/
theorem C7_witness :
    (⟨1, 2, 7, 9, 5, CashbackStatus.PROCESSED, 0, some 3⟩ : CashbackRow) ∈
      (applyCashbackOp C7db (CashbackOp.expire 1)).cashbacks ∧
    (⟨1, 2, 7, 9, 5, CashbackStatus.PROCESSED, 0, some 3⟩ : CashbackRow).status =
      CashbackStatus.PROCESSED :=
  ⟨by decide,
   (C7_eligible_leaves_once C7db (CashbackOp.expire 1)
     ⟨1, 2, 7, 9, 5, CashbackStatus.PROCESSED, 0, some 3⟩
     ⟨1, 2, 7, 9, 5, CashbackStatus.PROCESSED, 0, some 3⟩
     (by decide) (by decide) (by decide) rfl).1 (Or.inl rfl)⟩

/-! ## Claim C2 -/

/-- Shape of the state after `process_cashback_to_wallet` succeeds on an
ELIGIBLE cashback: the cashback turns PROCESSED with a transaction
reference, the order's flag flips, and exactly one CREDIT transaction is
appended; only the wallets table and the id counter vary with the lazy
wallet creation. -/
theorem process_to_wallet_shape (db : DB) (cid : Nat) (c : CashbackRow)
    (hfind : db.cashbacks.find? (fun x => x.id = cid) = some c)
    (hst : c.status = CashbackStatus.ELIGIBLE) :
    ∃ (walletsNew : List WalletRow) (nextN : Nat) (t : TxnRow),
      t.transaction_type = TxnType.CREDIT ∧
      process_cashback_to_wallet db cid =
        ⟨db.products, db.cart_items,
         db.orders.map (fun o =>
           if o.id = c.order_id then { o with cashback_given := true } else o),
         db.cashbacks.map (fun c2 =>
           if c2.id = cid then
             { c2 with
                 status := CashbackStatus.PROCESSED,
                 wallet_transaction_id := some t.id }
           else c2),
         walletsNew,
         db.wallet_transactions ++ [t],
         db.settlements, nextN⟩ := by
  unfold process_cashback_to_wallet
  rw [hfind]
  simp only [hst, reduceIte]
  unfold getOrCreateWallet
  cases hw : db.wallets.find? (fun w => w.user_id = c.user_id) with
  | some w =>
      exact ⟨_, _, ⟨db.nextId, w.id, TxnType.CREDIT, c.amount, "Cashback credited", some c.id⟩,
        rfl, rfl⟩
  | none =>
      exact ⟨_, _, ⟨db.nextId + 1, db.nextId, TxnType.CREDIT, c.amount,
        "Cashback credited", some c.id⟩, rfl, rfl⟩

/-- Claim C2: `processCashbackForOrder` is idempotent.  First, when the
order's `cashback_given` flag is already true the call returns without
side effects.  Second, when an existing cashback row for the order is not
in ELIGIBLE state the call returns without side effects.  Third, calling
it twice on a delivered order that has no cashback yet leaves the second
call without effect and produces exactly one cashback row for the order
and exactly one CREDIT wallet transaction. -/
theorem C2_processCashback_idempotent :
    (∀ (db : DB) (now : Int) (orderId : Nat) (o : OrderRow),
      db.orders.find? (fun x => x.id = orderId) = some o →
      o.cashback_given = true →
      processCashbackForOrder db now orderId = (db, .ok none)) ∧
    (∀ (db : DB) (now : Int) (orderId : Nat) (o : OrderRow) (c : CashbackRow),
      db.orders.find? (fun x => x.id = orderId) = some o →
      o.order_status = OrderStatus.DELIVERED →
      o.cashback_given = false →
      db.cashbacks.find? (fun x => x.order_id = orderId) = some c →
      db.cashbacks.find? (fun x => x.id = c.id) = some c →
      c.status ≠ CashbackStatus.ELIGIBLE →
      processCashbackForOrder db now orderId = (db, .ok (some c))) ∧
    (∀ (db : DB) (now : Int) (orderId : Nat) (o : OrderRow),
      db.WF →
      db.orders.find? (fun x => x.id = orderId) = some o →
      o.order_status = OrderStatus.DELIVERED →
      o.cashback_given = false →
      db.cashbacks.find? (fun x => x.order_id = orderId) = none →
      processCashbackForOrder (processCashbackForOrder db now orderId).1 now orderId =
        ((processCashbackForOrder db now orderId).1, .ok none) ∧
      (processCashbackForOrder db now orderId).1.cashbacks.countP
        (fun x => x.order_id = orderId) = 1 ∧
      (processCashbackForOrder db now orderId).1.wallet_transactions.countP
        (fun t => t.transaction_type = TxnType.CREDIT) =
        db.wallet_transactions.countP
          (fun t => t.transaction_type = TxnType.CREDIT) + 1) := by
  refine ⟨?_, ?_, ?_⟩
  · intro db now orderId o h1 h2
    simp [processCashbackForOrder, h1, h2]
  · intro db now orderId o c h1 h2 h3 h4 h5 h6
    simp [processCashbackForOrder, h1, h2, h3, h4, process_cashback_to_wallet, h5, h6]
  · intro db now orderId o hwf h1 h2 h3 h4
    obtain ⟨hnd_o, hnd_c, hnd_w, hnd_p, hlt_o, hlt_c, hlt_w, hlt_t⟩ := hwf
    have hoid : o.id = orderId := by simpa using List.find?_some h1
    set row : CashbackRow := ⟨db.nextId, orderId, o.user_id,
      calculateCashback o.total_amount, 5, CashbackStatus.ELIGIBLE,
      now + 30 * 24 * 60 * 60 * 1000, none⟩ with hrowdef
    set db1 : DB := { db with
      cashbacks := db.cashbacks ++ [row],
      nextId := db.nextId + 1 } with hdb1def
    have hstep1 : processCashbackForOrder db now orderId =
        (process_cashback_to_wallet db1 db.nextId, .ok (some row)) := by
      rw [hdb1def, hrowdef]
      simp [processCashbackForOrder, h1, h2, h3, h4]
    have hfind1 : db1.cashbacks.find? (fun x => x.id = db.nextId) = some row := by
      rw [hdb1def]
      show (db.cashbacks ++ [row]).find? (fun x => x.id = db.nextId) = some row
      rw [List.find?_append]
      have hn : db.cashbacks.find? (fun x => x.id = db.nextId) = none :=
        List.find?_eq_none.mpr (fun x hx => by
          simpa using Nat.ne_of_lt (hlt_c x hx))
      rw [hn]
      simp [hrowdef]
    obtain ⟨walletsNew, nextN, t, htc, hS⟩ :=
      process_to_wallet_shape db1 db.nextId row hfind1 rfl
    have hd1o : db1.orders = db.orders := by rw [hdb1def]
    have hd1c : db1.cashbacks = db.cashbacks ++ [row] := by rw [hdb1def]
    have hd1t : db1.wallet_transactions = db.wallet_transactions := by rw [hdb1def]
    rw [hd1o, hd1c, hd1t] at hS
    have hfo2 : (process_cashback_to_wallet db1 db.nextId).orders.find?
        (fun x => x.id = orderId) = some { o with cashback_given := true } := by
      rw [hS]
      show (db.orders.map (fun o2 =>
        if o2.id = row.order_id then { o2 with cashback_given := true } else o2)).find?
          (fun x => x.id = orderId) = some { o with cashback_given := true }
      rw [List.find?_map]
      have hpe : ((fun x : OrderRow => decide (x.id = orderId)) ∘ (fun o2 =>
          if o2.id = row.order_id then { o2 with cashback_given := true } else o2)) =
          (fun x : OrderRow => decide (x.id = orderId)) := by
        funext o2
        have hidpres : (if o2.id = row.order_id then
            { o2 with cashback_given := true } else o2).id = o2.id := by
          split <;> rfl
        simp [Function.comp, hidpres]
      rw [hpe, h1]
      have hrow_oid : row.order_id = orderId := by rw [hrowdef]
      simp [Option.map_some, hoid, hrow_oid]
    have hcall2 : processCashbackForOrder (process_cashback_to_wallet db1 db.nextId)
        now orderId = (process_cashback_to_wallet db1 db.nextId, .ok none) := by
      simp [processCashbackForOrder, hfo2]
    have hcnt1 : (process_cashback_to_wallet db1 db.nextId).cashbacks.countP
        (fun x => x.order_id = orderId) = 1 := by
      rw [hS]
      show ((db.cashbacks ++ [row]).map (fun c2 =>
        if c2.id = db.nextId then
          { c2 with
              status := CashbackStatus.PROCESSED,
              wallet_transaction_id := some t.id }
        else c2)).countP (fun x => x.order_id = orderId) = 1
      rw [List.countP_map]
      have hpe : ((fun x : CashbackRow => decide (x.order_id = orderId)) ∘ (fun c2 =>
          if c2.id = db.nextId then
            { c2 with
                status := CashbackStatus.PROCESSED,
                wallet_transaction_id := some t.id }
          else c2)) = (fun x : CashbackRow => decide (x.order_id = orderId)) := by
        funext c2
        have hpres : (if c2.id = db.nextId then
            { c2 with
                status := CashbackStatus.PROCESSED,
                wallet_transaction_id := some t.id }
          else c2).order_id = c2.order_id := by
          split <;> rfl
        simp [Function.comp, hpres]
      rw [hpe, List.countP_append]
      have h0 : db.cashbacks.countP (fun x => x.order_id = orderId) = 0 :=
        List.countP_eq_zero.mpr (fun a ha => by
          simpa using List.find?_eq_none.mp h4 a ha)
      rw [h0]
      have hrow_oid : row.order_id = orderId := by rw [hrowdef]
      simp [hrow_oid]
    have hcnt2 : (process_cashback_to_wallet db1 db.nextId).wallet_transactions.countP
        (fun x => x.transaction_type = TxnType.CREDIT) =
        db.wallet_transactions.countP
          (fun x => x.transaction_type = TxnType.CREDIT) + 1 := by
      rw [hS]
      show (db.wallet_transactions ++ [t]).countP
          (fun x => x.transaction_type = TxnType.CREDIT) =
        db.wallet_transactions.countP
          (fun x => x.transaction_type = TxnType.CREDIT) + 1
      rw [List.countP_append]
      simp [htc]
    refine ⟨?_, ?_, ?_⟩
    · rw [hstep1]
      exact hcall2
    · rw [hstep1]
      exact hcnt1
    · rw [hstep1]
      exact hcnt2

/-- A store holding a DELIVERED order with total 180 for user 7, no
cashback rows, and a zero-balance wallet. -/
def C2db : DB := ⟨[], [], [⟨1, 7, [], 180, OrderStatus.DELIVERED, false⟩], [], [⟨2, 7, 0⟩], [], [], 3⟩

/-- Witness for claim C2: running the processing twice on the concrete
delivered order leaves the second call without effect, with exactly one
cashback row and exactly one CREDIT transaction created. -/
theorem C2_witness :
    processCashbackForOrder (processCashbackForOrder C2db 0 1).1 0 1 =
      ((processCashbackForOrder C2db 0 1).1, .ok none) ∧
    (processCashbackForOrder C2db 0 1).1.cashbacks.countP
      (fun x => x.order_id = 1) = 1 ∧
    (processCashbackForOrder C2db 0 1).1.wallet_transactions.countP
      (fun t => t.transaction_type = TxnType.CREDIT) =
      C2db.wallet_transactions.countP
        (fun t => t.transaction_type = TxnType.CREDIT) + 1 :=
  C2_processCashback_idempotent.2.2 C2db 0 1 ⟨1, 7, [], 180, OrderStatus.DELIVERED, false⟩
    (by decide) (by decide) rfl rfl (by decide)

/-! ## Claim C4 -/

/-- The signed contribution of one transaction type to a wallet, read off
the transaction log. -/
def ledgerSum (ts : List TxnRow) (walletId : Nat) (ty : TxnType) : Rat :=
  ((ts.filter (fun t => t.wallet_id = walletId ∧ t.transaction_type = ty)).map
    (fun t => t.amount)).sum

/-- The wallet invariant of the spec: every cached balance equals the sum
of the wallet's CREDIT amounts minus the sum of its DEBIT amounts. -/
def balanceInvariant (db : DB) : Prop :=
  ∀ w ∈ db.wallets,
    w.balance = ledgerSum db.wallet_transactions w.id TxnType.CREDIT -
      ledgerSum db.wallet_transactions w.id TxnType.DEBIT

instance (db : DB) : Decidable (balanceInvariant db) := by
  unfold balanceInvariant; infer_instance

/-- Appending one transaction adds its amount to the matching wallet and
type, and nothing elsewhere. -/
theorem ledgerSum_append_single (ts : List TxnRow) (t : TxnRow) (i : Nat) (ty : TxnType) :
    ledgerSum (ts ++ [t]) i ty =
      ledgerSum ts i ty +
        (if t.wallet_id = i ∧ t.transaction_type = ty then t.amount else 0) := by
  unfold ledgerSum
  rw [List.filter_append]
  by_cases h : t.wallet_id = i ∧ t.transaction_type = ty
  · simp [h]
  · simp [h]

/-- A wallet id no transaction refers to contributes nothing. -/
theorem ledgerSum_eq_zero (ts : List TxnRow) (i : Nat) (ty : TxnType)
    (h : ∀ t ∈ ts, t.wallet_id ≠ i) : ledgerSum ts i ty = 0 := by
  unfold ledgerSum
  rw [List.filter_eq_nil_iff.mpr (fun t ht => by simp [h t ht])]
  rfl

/-- Core of the credit and debit paths: appending one transaction for an
existing wallet while setting that wallet's balance to its old value plus
the transaction's signed amount preserves well-formedness and the wallet
invariant. -/
theorem ledger_update_core (db : DB) (w : WalletRow) (t : TxnRow) (b' : Rat)
    (hw : w ∈ db.wallets) (hwf : db.WF) (hinv : balanceInvariant db)
    (htw : t.wallet_id = w.id)
    (hb : b' = w.balance +
      (if t.transaction_type = TxnType.CREDIT then t.amount else - t.amount)) :
    DB.WF { db with
      wallet_transactions := db.wallet_transactions ++ [t],
      wallets := db.wallets.map (fun w2 =>
        if w2.id = w.id then { w2 with balance := b' } else w2),
      nextId := db.nextId + 1 } ∧
    balanceInvariant { db with
      wallet_transactions := db.wallet_transactions ++ [t],
      wallets := db.wallets.map (fun w2 =>
        if w2.id = w.id then { w2 with balance := b' } else w2),
      nextId := db.nextId + 1 } := by
  obtain ⟨hnd_o, hnd_c, hnd_w, hnd_p, hlt_o, hlt_c, hlt_w, hlt_t⟩ := hwf
  have hids : (db.wallets.map (fun w2 =>
      if w2.id = w.id then { w2 with balance := b' } else w2)).map (fun x => x.id) =
      db.wallets.map (fun x => x.id) := by
    rw [List.map_map]
    apply List.map_congr_left
    intro w2 _
    dsimp only [Function.comp]
    split <;> rfl
  constructor
  · refine ⟨hnd_o, hnd_c, ?_, hnd_p, ?_, ?_, ?_, ?_⟩
    · rw [hids]; exact hnd_w
    · exact fun o ho => Nat.lt_succ_of_lt (hlt_o o ho)
    · exact fun c hc => Nat.lt_succ_of_lt (hlt_c c hc)
    · intro w2' hmem
      obtain ⟨w2, hw2, rfl⟩ := List.mem_map.mp hmem
      have : (if w2.id = w.id then { w2 with balance := b' } else w2).id = w2.id := by
        split <;> rfl
      rw [this]
      exact Nat.lt_succ_of_lt (hlt_w w2 hw2)
    · intro t' ht'
      rcases List.mem_append.mp ht' with h | h
      · exact Nat.lt_succ_of_lt (hlt_t t' h)
      · rw [List.mem_singleton.mp h, htw]
        exact Nat.lt_succ_of_lt (hlt_w w hw)
  · intro w2' hmem
    obtain ⟨w2, hw2, rfl⟩ := List.mem_map.mp hmem
    by_cases h : w2.id = w.id
    · have hw2w : w2 = w := List.inj_on_of_nodup_map hnd_w hw2 hw h
      subst hw2w
      rw [if_pos h]
      show b' = ledgerSum (db.wallet_transactions ++ [t]) w2.id TxnType.CREDIT -
        ledgerSum (db.wallet_transactions ++ [t]) w2.id TxnType.DEBIT
      rw [ledgerSum_append_single, ledgerSum_append_single, hb, hinv w2 hw2]
      have htw2 : t.wallet_id = w2.id := htw
      cases hty : t.transaction_type <;> simp [htw2] <;> ring
    · rw [if_neg h]
      show w2.balance = ledgerSum (db.wallet_transactions ++ [t]) w2.id TxnType.CREDIT -
        ledgerSum (db.wallet_transactions ++ [t]) w2.id TxnType.DEBIT
      rw [ledgerSum_append_single, ledgerSum_append_single,
        if_neg (by simp [htw]; intro hc; exact absurd hc.symm h),
        if_neg (by simp [htw]; intro hc; exact absurd hc.symm h)]
      rw [add_zero, add_zero]
      exact hinv w2 hw2

/-- Lazily creating a zero-balance wallet with a fresh id preserves
well-formedness and the wallet invariant. -/
theorem fresh_wallet_core (db : DB) (u : Nat) (hwf : db.WF) (hinv : balanceInvariant db) :
    DB.WF { db with
      wallets := db.wallets ++ [⟨db.nextId, u, 0⟩],
      nextId := db.nextId + 1 } ∧
    balanceInvariant { db with
      wallets := db.wallets ++ [⟨db.nextId, u, 0⟩],
      nextId := db.nextId + 1 } := by
  obtain ⟨hnd_o, hnd_c, hnd_w, hnd_p, hlt_o, hlt_c, hlt_w, hlt_t⟩ := hwf
  constructor
  · refine ⟨hnd_o, hnd_c, ?_, hnd_p, ?_, ?_, ?_, ?_⟩
    · rw [List.map_append, List.nodup_append]
      refine ⟨hnd_w, List.nodup_singleton _, ?_⟩
      intro a ha hb
      simp only [List.map_cons, List.map_nil, List.mem_singleton] at hb
      obtain ⟨x, hx, hxa⟩ := List.mem_map.mp ha
      have := hlt_w x hx
      omega
    · exact fun o ho => Nat.lt_succ_of_lt (hlt_o o ho)
    · exact fun c hc => Nat.lt_succ_of_lt (hlt_c c hc)
    · intro w2 hmem
      rcases List.mem_append.mp hmem with h | h
      · exact Nat.lt_succ_of_lt (hlt_w w2 h)
      · rw [List.mem_singleton.mp h]
        exact Nat.lt_succ_self _
    · exact fun t' ht' => Nat.lt_succ_of_lt (hlt_t t' ht')
  · intro w2 hmem
    rcases List.mem_append.mp hmem with h | h
    · exact hinv w2 h
    · rw [List.mem_singleton.mp h]
      show (0 : Rat) = ledgerSum db.wallet_transactions db.nextId TxnType.CREDIT -
        ledgerSum db.wallet_transactions db.nextId TxnType.DEBIT
      rw [ledgerSum_eq_zero _ _ _ (fun t' ht' => Nat.ne_of_lt (hlt_t t' ht')),
        ledgerSum_eq_zero _ _ _ (fun t' ht' => Nat.ne_of_lt (hlt_t t' ht'))]
      norm_num

/-- A wallet-ledger operation: a credit through `addBalance` or a debit
through `use_wallet_balance`. -/
inductive WalletOp
  | credit (userId : Nat) (amount : Rat) (memo : String)
  | debit (userId orderId : Nat) (amount : Rat)

/-- The state reached by running one wallet-ledger operation. -/
def applyWalletOp (db : DB) : WalletOp → DB
  | .credit u a m => (addBalance db u a m).1
  | .debit u oid a => (use_wallet_balance db u oid a).1

/-- One wallet-ledger operation preserves well-formedness and the wallet
invariant: the balance mutation and the transaction insertion happen in
the same step. -/
theorem applyWalletOp_preserves (db : DB) (op : WalletOp)
    (hwf : db.WF) (hinv : balanceInvariant db) :
    (applyWalletOp db op).WF ∧ balanceInvariant (applyWalletOp db op) := by
  cases op with
  | credit u a m =>
      cases hw : db.wallets.find? (fun x => x.user_id = u) with
      | some w =>
          have hred : (applyWalletOp db (WalletOp.credit u a m)) =
              { db with
                wallet_transactions := db.wallet_transactions ++
                  [⟨db.nextId, w.id, TxnType.CREDIT, a, m, none⟩],
                wallets := db.wallets.map (fun w2 =>
                  if w2.id = w.id then { w2 with balance := w.balance + a } else w2),
                nextId := db.nextId + 1 } := by
            simp only [applyWalletOp, addBalance, getOrCreateWallet, hw]
          rw [hred]
          exact ledger_update_core db w
            (⟨db.nextId, w.id, TxnType.CREDIT, a, m, none⟩ : TxnRow)
            (w.balance + a) (List.mem_of_find?_eq_some hw) hwf hinv rfl (by simp)
      | none =>
          have hstep := fresh_wallet_core db u hwf hinv
          have hred : (applyWalletOp db (WalletOp.credit u a m)) =
              { db with
                wallets := (db.wallets ++ [(⟨db.nextId, u, 0⟩ : WalletRow)]).map (fun w2 =>
                  if w2.id = db.nextId then { w2 with balance := (0 : Rat) + a } else w2),
                wallet_transactions := db.wallet_transactions ++
                  [⟨db.nextId + 1, db.nextId, TxnType.CREDIT, a, m, none⟩],
                nextId := db.nextId + 1 + 1 } := by
            simp only [applyWalletOp, addBalance, getOrCreateWallet, hw]
          rw [hred]
          exact ledger_update_core
            { db with wallets := db.wallets ++ [⟨db.nextId, u, 0⟩], nextId := db.nextId + 1 }
            (⟨db.nextId, u, 0⟩ : WalletRow)
            (⟨db.nextId + 1, db.nextId, TxnType.CREDIT, a, m, none⟩ : TxnRow)
            ((0 : Rat) + a) (List.mem_append_right _ (List.mem_singleton.mpr rfl))
            hstep.1 hstep.2 rfl (by simp)
  | debit u oid a =>
      cases hw : db.wallets.find? (fun x => x.user_id = u) with
      | none =>
          have hred : (applyWalletOp db (WalletOp.debit u oid a)) = db := by
            simp only [applyWalletOp, use_wallet_balance, hw]
          rw [hred]
          exact ⟨hwf, hinv⟩
      | some w =>
          by_cases hbal : w.balance < a
          · have hred : (applyWalletOp db (WalletOp.debit u oid a)) = db := by
              simp only [applyWalletOp, use_wallet_balance, hw, if_pos hbal]
            rw [hred]
            exact ⟨hwf, hinv⟩
          · have hred : (applyWalletOp db (WalletOp.debit u oid a)) =
                { db with
                  wallet_transactions := db.wallet_transactions ++
                    [⟨db.nextId, w.id, TxnType.DEBIT, a, "Order payment", some oid⟩],
                  wallets := db.wallets.map (fun w2 =>
                    if w2.id = w.id then { w2 with balance := w.balance - a } else w2),
                  nextId := db.nextId + 1 } := by
              simp only [applyWalletOp, use_wallet_balance, hw, if_neg hbal]
            rw [hred]
            exact ledger_update_core db w ⟨db.nextId, w.id, TxnType.DEBIT, a, "Order payment", some oid⟩
              (w.balance - a) (List.mem_of_find?_eq_some hw) hwf hinv rfl (by simp; ring)

/-- Claim C4: after any sequence of wallet credit and debit operations
starting from a well-formed state satisfying the invariant, every wallet's
cached balance still equals the sum of its CREDIT transaction amounts
minus the sum of its DEBIT transaction amounts. -/
theorem C4_wallet_balance_invariant (db : DB) (ops : List WalletOp)
    (hwf : db.WF) (hinv : balanceInvariant db) :
    balanceInvariant (ops.foldl applyWalletOp db) := by
  induction ops generalizing db with
  | nil => exact hinv
  | cons op ops ih =>
      obtain ⟨hwf', hinv'⟩ := applyWalletOp_preserves db op hwf hinv
      exact ih _ hwf' hinv'

/-- The empty store. -/
def C4db : DB := ⟨[], [], [], [], [], [], [], 0⟩

/-- Witness for claim C4 on a concrete run: a credit of 10 followed by a
debit of 4 for user 1 leaves every balance equal to its ledger sums. -/
theorem C4_witness :
    balanceInvariant
      (([WalletOp.credit 1 10 "bonus", WalletOp.debit 1 5 4]).foldl applyWalletOp C4db) :=
  C4_wallet_balance_invariant C4db [WalletOp.credit 1 10 "bonus", WalletOp.debit 1 5 4]
    (by decide) (by decide)

end Glonni
